import Mathlib

set_option maxHeartbeats 1000000

/-!
Verification development for the discovery-ai intake pipeline (src/main.py).

The source is a single Python module implementing:
  * an event handler `analyze_discovery_material_ce` triggered by storage
    object-finalized events,
  * a folder-policy enforcer `handle_new_file_or_change`,
  * a per-kind file validator `validate_file` / `validate_file_helper`,
  * an audio transcription stage `speech_to_text`,
  * an optimistic-concurrency audit-log appender `gcs_log`.

The embedding below translates these functions into pure Lean functions.
External collaborators (the object store, the ffprobe subprocess, the
transcription service, PIL / python-docx / PyPDF2 parsers) are modelled by
explicit environment records describing the outcome of each external call;
Python exceptions are modelled with `Except`, and external side effects
(deletes, uploads, audit-log appends, transcription calls) are collected in
an explicit effect trace.  The shared audit-log object is modelled twice, at
two levels of detail: a single-call functional model of the retry loop of
`gcs_log`, and a multi-writer small-step system for the concurrency claims.
-/

/-! ## Path helpers (os.path.splitext, os.path.basename, str.lower, str.strip) -/

/-- Index of the last occurrence of a character in a list of characters,
`none` if the character does not occur (Python `str.rfind`, with `none`
playing the role of `-1`). -/
def rfindIdx (c : Char) : List Char → Option Nat
  | [] => none
  | a :: as =>
    match rfindIdx c as with
    | some i => some (i + 1)
    | none => if a = c then some 0 else none

/-- Index of the first character of the basename: one past the last `/`,
or `0` when the path has no separator (CPython `posixpath.splitext`
computes `sepIndex + 1` in the same way). -/
def splitStart (p : List Char) : Nat :=
  match rfindIdx '/' p with
  | none => 0
  | some i => i + 1

/-- CPython `posixpath.splitext` on a list of characters: locate the last
dot; if it lies inside the basename (strictly after the last separator) and
the basename has at least one non-dot character before it (so a leading run
of dots, as in `.bashrc`, is not an extension), split there; otherwise the
extension is empty. -/
def splitextCore (p : List Char) : List Char × List Char :=
  match rfindIdx '.' p with
  | none => (p, [])
  | some d =>
    if splitStart p ≤ d ∧
        ((p.drop (splitStart p)).take (d - splitStart p)).any (fun ch => ch != '.') then
      (p.take d, p.drop d)
    else (p, [])

/-- First component of `os.path.splitext` (the path with the extension
removed). -/
def splitextRoot (s : String) : String := String.mk (splitextCore s.data).1

/-- Second component of `os.path.splitext` (the extension, dot included,
possibly empty). -/
def splitextExt (s : String) : String := String.mk (splitextCore s.data).2

/-- ASCII lower-casing of one character; this is how Python `str.lower`
acts on the ASCII range, which covers every extension the source compares
against. -/
def asciiLower (c : Char) : Char :=
  if 'A' ≤ c ∧ c ≤ 'Z' then Char.ofNat (c.toNat + 32) else c

/-- Python `str.lower`, restricted to the ASCII case folding used by the
dispatch on extensions. -/
def pyLower (s : String) : String := String.mk (s.data.map asciiLower)

/-- Source `get_file_extension` (main.py line 225):
`(os.path.splitext(file_name)[1] or "").lower()`.  The `or ""` is the
identity on strings (an empty extension stays empty), so the function is
the lower-cased `splitext` extension. -/
def get_file_extension (file_name : String) : String := pyLower (splitextExt file_name)

/-- Python `os.path.basename`: everything after the last `/`. -/
def basenameCore (l : List Char) : List Char :=
  (l.reverse.takeWhile (fun ch => ch != '/')).reverse

/-- String wrapper for `os.path.basename`. -/
def os_basename (s : String) : String := String.mk (basenameCore s.data)

/-- Python `str.strip` with the default whitespace set: drop whitespace at
both ends. -/
def stripList (l : List Char) : List Char :=
  ((l.dropWhile Char.isWhitespace).reverse.dropWhile Char.isWhitespace).reverse

/-- String wrapper for Python `str.strip`. -/
def pyStrip (s : String) : String := String.mk (stripList s.data)

/-! ## The file validator (`validate_file_helper`, main.py lines 228-278) -/

/-- Python exceptions that appear in the modelled fragment.  `timeoutExpired`
is `subprocess.TimeoutExpired`; `oserror` stands for the `OSError` /
`FileNotFoundError` raised when the probed executable cannot be spawned;
`other` covers every remaining exception (storage, network, parsing at the
invocation boundary). -/
inductive PyExn
  | timeoutExpired
  | oserror (msg : String)
  | other (msg : String)
deriving DecidableEq, Repr

/-- Outcome of the external `subprocess.run(["ffprobe", ...], timeout=30)`
call: it either completes with an exit code and captured streams, hits the
30-unit timeout (raising `subprocess.TimeoutExpired`), or fails to spawn
(raising `OSError`, e.g. `FileNotFoundError`).  `subprocess.run` is called
without `check=True`, so it never raises `subprocess.CalledProcessError`. -/
inductive ProbeOutcome
  | completed (returncode : Int) (stdout stderr : String)
  | timedOut
  | spawnFailed (msg : String)
deriving DecidableEq, Repr

/-- Environment for one `validate_file_helper` call: whether the local file
exists, the ffprobe outcome, and the error (if any) raised by the PIL
image verifier, the python-docx parser and the PyPDF2 reader. -/
structure ProbeWorld where
  fileExists : Bool
  probe : ProbeOutcome
  imageError : Option String
  docxError : Option String
  pdfError : Option String
deriving DecidableEq, Repr

/-- Extensions handled by the media branch of the validator. -/
def mediaExts : List String := [".mp4", ".mkv", ".mp3", ".wav", ".m4a"]

/-- Extensions handled by the image branch of the validator. -/
def imageExts : List String := [".jpg", ".jpeg", ".png"]

/-- Extensions accepted by the transcription stage `speech_to_text`. -/
def audioExts : List String := [".mp3", ".wav", ".flac", ".m4a", ".ogg"]

/-- Source `validate_file_helper` (main.py lines 228-278).  Note on the
media branch: the source wraps `subprocess.run` in
`except subprocess.CalledProcessError`, but `run` without `check=True`
never raises that exception; a timeout raises `subprocess.TimeoutExpired`
and a spawn failure raises `OSError`, neither of which is caught, so both
propagate out of the function and are modelled as `Except.error`. -/
def validate_file_helper (pw : ProbeWorld) (local_path file_name : String) :
    Except PyExn (Bool × String) :=
  let ext := get_file_extension file_name
  if mediaExts.contains ext then
    if pw.fileExists = false then
      Except.ok (false, "File download failed: " ++ local_path ++ " does not exist.")
    else
      match pw.probe with
      | ProbeOutcome.completed rc _ err =>
        let stderr_content := pyStrip err
        if rc ≠ 0 ∨ stderr_content ≠ "" then
          Except.ok (false, "Invalid or corrupted media: " ++ file_name ++ ", " ++
            (if stderr_content ≠ "" then stderr_content else "None-zero exit code"))
        else
          Except.ok (true, file_name ++ " file passed integrity check.")
      | ProbeOutcome.timedOut => Except.error PyExn.timeoutExpired
      | ProbeOutcome.spawnFailed m => Except.error (PyExn.oserror m)
  else if imageExts.contains ext then
    match pw.imageError with
    | none => Except.ok (true, "Image file is valid.")
    | some e => Except.ok (false, "Corrupted image file: " ++ e)
  else if ext = ".docx" then
    match pw.docxError with
    | none => Except.ok (true, "DOCX file opened successfully.")
    | some e => Except.ok (false, "Corrupted DOCX file: " ++ e)
  else if ext = ".pdf" then
    match pw.pdfError with
    | none => Except.ok (true, "PDF file opened successfully.")
    | some e => Except.ok (false, "Corrupted or unreadable PDF: " ++ e)
  else
    Except.ok (false, "Unsupported file type for " ++ file_name ++ "; skipping validation.")

/-- The branch of the `if` / `elif` dispatch chain of
`validate_file_helper`. -/
inductive VBranch
  | media
  | image
  | docx
  | pdf
  | unsupported
deriving DecidableEq, Repr

/-- Branch selected for a given (already lower-cased) extension, mirroring
the dispatch chain of `validate_file_helper`. -/
def extBranch (ext : String) : VBranch :=
  if mediaExts.contains ext then VBranch.media
  else if imageExts.contains ext then VBranch.image
  else if ext = ".docx" then VBranch.docx
  else if ext = ".pdf" then VBranch.pdf
  else VBranch.unsupported

/-- Branch selected by `validate_file_helper` for a file name: the dispatch
is a total function of `get_file_extension file_name`, so exactly one
branch is selected. -/
def dispatchBranch (file_name : String) : VBranch := extBranch (get_file_extension file_name)

/-- Derived transcript path (main.py line 138):
`f"{os.path.splitext(file_name)[0]}.txt"`. -/
def processed_blob_name (file_name : String) : String := splitextRoot file_name ++ ".txt"

/-! ## The pipeline (`analyze_discovery_material_ce` and its stages)

Each stage is modelled as a function returning `Except PyExn α × List Effect`:
the first component is the Python return value, with `Except.error` marking
an exception escaping the function, and the second component is the trace of
externally observable side effects performed before returning or raising.
`Effect.logAppend` stands for one call to `gcs_log` (which itself never
raises; its internal retry behaviour is modelled separately below). -/

deriving instance DecidableEq for Except

/-- Externally observable side effects of one invocation. -/
inductive Effect
  | deleteObject (bucket name : String)
  | logAppend (message severity : String)
  | transcribeCall (uri : String)
  | uploadArtifact (bucket name content : String)
deriving DecidableEq, Repr

/-- The inbound CloudEvent, restricted to the fields the source reads:
`ce["type"]`, `ce.data["bucket"]`, `ce.data["name"]`. -/
structure IngestEvent where
  type : String
  bucket : String
  name : String
deriving DecidableEq, Repr

/-- Environment for one invocation: outcome of each external call the
pipeline can make.  A `some msg` in a `...Fails` field means the
corresponding storage call raises an exception with that message. -/
structure PipeWorld where
  deleteFails : Option String
  downloadFails : Option String
  probeWorld : ProbeWorld
  validateDeleteFails : Option String
  transcribeResult : Except String (List String)
  uploadFails : Option String
deriving DecidableEq, Repr

/-- Source `handle_new_file_or_change` (main.py lines 182-199): a path with
no `/` is a root-level object; it is deleted, one audit entry is appended
via `gcs_log` (default severity INFO), and `True` is returned.  Otherwise
`False` is returned with no side effect.  The `blob.delete()` call is not
wrapped in any `try`, so a delete failure raises out of the function before
the audit append. -/
def handle_new_file_or_change (w : PipeWorld) (file_name bucket_name : String) :
    Except PyExn Bool × List Effect :=
  if file_name.data.contains '/' = false then
    match w.deleteFails with
    | some m => (Except.error (PyExn.other m), [])
    | none =>
      (Except.ok true,
        [Effect.deleteObject bucket_name file_name,
         Effect.logAppend
           ("Deleted disallowed file " ++ file_name ++ " (no files allowed at bucket root)")
           "INFO"])
  else
    (Except.ok false, [])

/-- Source `validate_file` (main.py lines 202-223): download the object to
`/tmp/<basename>`, run `validate_file_helper`; on an invalid verdict delete
the object and append an ERROR audit entry.  Nothing here is wrapped in a
`try`, so a download failure, a delete failure, or an exception escaping
`validate_file_helper` (see `ProbeOutcome`) raises out of the function. -/
def validate_file (w : PipeWorld) (file_name bucket_name : String) :
    Except PyExn Unit × List Effect :=
  match w.downloadFails with
  | some m => (Except.error (PyExn.other m), [])
  | none =>
    let tmp_path := "/tmp/" ++ os_basename file_name
    match validate_file_helper w.probeWorld tmp_path file_name with
    | Except.error e => (Except.error e, [])
    | Except.ok (true, _) => (Except.ok (), [])
    | Except.ok (false, message) =>
      match w.validateDeleteFails with
      | some m => (Except.error (PyExn.other m), [])
      | none =>
        (Except.ok (),
          [Effect.deleteObject bucket_name file_name,
           Effect.logAppend
             ("Deleted corrupted or invalid file " ++ file_name ++ ": " ++ message ++ "\n")
             "ERROR"])

/-- Python `"\n".join`. -/
def joinNL : List String → String
  | [] => ""
  | [s] => s
  | s :: rest => s ++ "\n" ++ joinNL rest

/-- Source `speech_to_text` (main.py lines 115-150): skip non-audio
extensions with only a local diagnostic trace (no external effect); for
audio, call the transcription service and upload the derived `.txt`
artifact, logging success; any exception from the service call or the
upload is caught and converted into an ERROR audit entry, so the function
never raises (for well-formed event data). -/
def speech_to_text (w : PipeWorld) (file_name bucket_name : String) :
    Except PyExn Unit × List Effect :=
  let ext := get_file_extension file_name
  if audioExts.contains ext then
    let gcs_uri := "gs://" ++ bucket_name ++ "/" ++ file_name
    match w.transcribeResult with
    | Except.error e =>
      (Except.ok (),
        [Effect.transcribeCall gcs_uri,
         Effect.logAppend ("Speech-to-text failed for " ++ gcs_uri ++ ": " ++ e) "ERROR"])
    | Except.ok results =>
      let transcript0 := pyStrip (joinNL results)
      let transcript := if transcript0 = "" then "[No transcription available]" else transcript0
      match w.uploadFails with
      | some m =>
        (Except.ok (),
          [Effect.transcribeCall gcs_uri,
           Effect.logAppend ("Speech-to-text failed for " ++ gcs_uri ++ ": " ++ m) "ERROR"])
      | none =>
        (Except.ok (),
          [Effect.transcribeCall gcs_uri,
           Effect.uploadArtifact "discovery-processed" (processed_blob_name file_name) transcript,
           Effect.logAppend
             ("Transcribed " ++ gcs_uri ++ " → gs://discovery-processed/" ++
               processed_blob_name file_name)
             "INFO"])
  else
    (Except.ok (), [])

/-- Source `analyze_discovery_material_ce` (main.py lines 60-86): only
`finalized` events are processed; the folder-policy stage runs first and
unguarded (its exceptions propagate); on a policy deletion the invocation
returns; `validate_file` is wrapped in `try ... except Exception` whose
handler only logs locally, so its result and its exceptions are both
discarded; `speech_to_text` then runs unconditionally and unguarded. -/
def analyze_discovery_material_ce (w : PipeWorld) (ce : IngestEvent) :
    Except PyExn Unit × List Effect :=
  if ce.type = "google.cloud.storage.object.v1.finalized" then
    match handle_new_file_or_change w ce.name ce.bucket with
    | (Except.error e, fx) => (Except.error e, fx)
    | (Except.ok true, fx) => (Except.ok (), fx)
    | (Except.ok false, fx) =>
      match validate_file w ce.name ce.bucket, speech_to_text w ce.name ce.bucket with
      | (_, fxv), (Except.error e, fxs) => (Except.error e, fx ++ fxv ++ fxs)
      | (_, fxv), (Except.ok _, fxs) => (Except.ok (), fx ++ fxv ++ fxs)
  else
    (Except.ok (), [])

/-- A probe environment in which every external validation call succeeds. -/
def probeOkWorld : ProbeWorld :=
  { fileExists := true
    probe := ProbeOutcome.completed 0 "" ""
    imageError := none
    docxError := none
    pdfError := none }

/-- A pipeline environment in which every storage call succeeds and the
transcription service raises (used by witnesses that do not exercise the
upload path). -/
def pipeOkWorld : PipeWorld :=
  { deleteFails := none
    downloadFails := none
    probeWorld := probeOkWorld
    validateDeleteFails := none
    transcribeResult := Except.error "Recognizer not found"
    uploadFails := none }

/-- Environment for the C2 counterexample: the policy-stage delete raises. -/
def policyDeleteFailsWorld : PipeWorld :=
  { pipeOkWorld with deleteFails := some "ServiceUnavailable" }

/-- Environment for the C3 counterexample: the object downloads fine but
ffprobe reports a non-zero exit code, so validation fails and deletes it;
the transcription service then raises (the object is gone). -/
def invalidAudioWorld : PipeWorld :=
  { pipeOkWorld with
      probeWorld := { probeOkWorld with probe := ProbeOutcome.completed 1 "" "" }
      transcribeResult := Except.error "NotFound" }

/-- A finalized event for a root-level object. -/
def rootEvent : IngestEvent :=
  { type := "google.cloud.storage.object.v1.finalized"
    bucket := "discovery-ingest"
    name := "report.pdf" }

/-- A finalized event for an audio object inside a folder. -/
def audioEvent : IngestEvent :=
  { type := "google.cloud.storage.object.v1.finalized"
    bucket := "discovery-ingest"
    name := "caseA/bad.wav" }

/-! ## Single-call model of the `gcs_log` retry loop (main.py lines 280-325)

The body of `gcs_log` is `for attempt in range(1, max_retries + 1)` around a
`try` block.  Every control path through the loop body ends in `return`
(upload accepted, or any exception other than `PreconditionFailed`) or in
`continue` (a `PreconditionFailed`, after `time.sleep(0.5 * attempt)`), so
the trailing `logger.error("Failed to append log after multiple retries...")`
statement, which sits inside the loop body after the `except` clauses, is
unreachable, and when the loop exhausts its range the function falls off the
end and returns `None` silently.  The model records, per call, what the
environment made each attempt's upload do, and which local traces ran. -/

/-- What the storage layer makes one attempt of `gcs_log` do: the upload is
accepted, it is rejected with `google.api_core.exceptions.PreconditionFailed`
(generation mismatch), or some other exception occurs during the attempt. -/
inductive AttemptOutcome
  | success
  | precondFailed
  | otherError
deriving DecidableEq, Repr

/-- Result of one `gcs_log` call.  `backoffs` lists the multiplier `k` of
each executed `time.sleep(0.5 * k)`; `raised` records whether an exception
escaped the function; `exhaustionTraceEmitted` records whether the
`logger.error` statement at the end of the loop body ran;
`unexpectedTraceEmitted` records whether the `logger.exception` of the
catch-all handler ran. -/
structure LogCallResult where
  committed : Bool
  attemptsUsed : Nat
  backoffs : List Nat
  raised : Bool
  exhaustionTraceEmitted : Bool
  unexpectedTraceEmitted : Bool
deriving DecidableEq, Repr

/-- The retry loop of `gcs_log`, one constructor case per control path of
the loop body: `attempt` is the 1-based loop counter, the second argument
the number of remaining iterations, the third the sleeps executed so far. -/
def gcs_log_go (env : Nat → AttemptOutcome) : Nat → Nat → List Nat → LogCallResult
  | attempt, 0, backoffs =>
    { committed := false, attemptsUsed := attempt - 1, backoffs := backoffs,
      raised := false, exhaustionTraceEmitted := false, unexpectedTraceEmitted := false }
  | attempt, r + 1, backoffs =>
    match env attempt with
    | AttemptOutcome.success =>
      { committed := true, attemptsUsed := attempt, backoffs := backoffs,
        raised := false, exhaustionTraceEmitted := false, unexpectedTraceEmitted := false }
    | AttemptOutcome.precondFailed =>
      gcs_log_go env (attempt + 1) r (backoffs ++ [attempt])
    | AttemptOutcome.otherError =>
      { committed := false, attemptsUsed := attempt, backoffs := backoffs,
        raised := false, exhaustionTraceEmitted := false, unexpectedTraceEmitted := true }

/-- One call of `gcs_log` with the given `max_retries` (source default 5). -/
def gcs_log_model (env : Nat → AttemptOutcome) (max_retries : Nat) : LogCallResult :=
  gcs_log_go env 1 max_retries []

/-! ## Multi-writer model of the shared audit-log object

Each concurrent invocation runs the `gcs_log` protocol against one shared
remote object.  The remote object is `none` (absent) or `some (g, lines)`
with generation token `g ≥ 1` and content the list of appended entries (the
log is a plain-text file of one formatted line per entry; content is
modelled as the list of those lines).  One attempt of a writer is two
system steps: a read step (`blob.exists` / `blob.reload` /
`download_to_filename`, which overwrites the local scratch file, or
truncation of the scratch file when the object is absent, followed by the
local append of the writer's entry) and a write step
(`upload_from_filename`, carrying `if_generation_match` exactly when the
observed generation was positive).  An arbitrary interleaving is a list of
writer indices; each scheduled index advances that writer by one step.
A writer whose attempt hits a non-concurrency exception simply stops being
scheduled, which is how the catch-all `return` path is represented. -/

/-- Phase of one writer in the append protocol. -/
inductive WPhase
  | ready
  | staged (g : Nat) (readContent : List String)
  | committed
  | gaveUp
deriving DecidableEq, Repr

/-- One concurrent `gcs_log` caller: its formatted entry, the number of
attempts started so far and its protocol phase. -/
structure LogWriter where
  entry : String
  attempt : Nat
  phase : WPhase
deriving DecidableEq, Repr

/-- The shared remote object and the writers racing on it. -/
structure LogSystem where
  remote : Option (Nat × List String)
  writers : Nat → LogWriter

/-- Generation token of the remote object, with absence read as 0 (the
source initialises `current_generation = 0` in that case). -/
def remGen : Option (Nat × List String) → Nat
  | none => 0
  | some (g, _) => g

/-- Committed content of the remote object (empty when absent). -/
def logLines : Option (Nat × List String) → List String
  | none => []
  | some (_, c) => c

/-- Pointwise update of the writer family. -/
def updW (ws : Nat → LogWriter) (i : Nat) (w : LogWriter) : Nat → LogWriter :=
  fun j => if j = i then w else ws j

/-- Read step of one attempt: if the loop has iterations left, observe the
remote object (generation and full content, the download overwriting the
scratch file) and stage the local buffer `readContent ++ [entry]`; an
absent object is observed as generation 0 with empty content.  A writer
whose loop range is exhausted leaves the loop. -/
def doRead (max_retries : Nat) (r : Option (Nat × List String)) (w : LogWriter) : LogWriter :=
  if w.attempt < max_retries then
    match r with
    | some (g, c) => { w with phase := WPhase.staged g c, attempt := w.attempt + 1 }
    | none => { w with phase := WPhase.staged 0 [], attempt := w.attempt + 1 }
  else
    { w with phase := WPhase.gaveUp }

/-- One system step: advance writer `i` by one action.  A staged writer
with observed generation 0 uploads without a precondition, which always
succeeds and replaces the remote content (the storage layer assigns a
strictly larger generation); with a positive observed generation the upload
carries `if_generation_match` and succeeds only if the remote generation is
still the observed one, otherwise the writer returns to the top of the loop
(`PreconditionFailed`). -/
def stepW (max_retries : Nat) (sys : LogSystem) (i : Nat) : LogSystem :=
  match (sys.writers i).phase with
  | WPhase.ready =>
    { sys with writers := updW sys.writers i (doRead max_retries sys.remote (sys.writers i)) }
  | WPhase.staged g readC =>
    if g = 0 then
      { remote := some (remGen sys.remote + 1, readC ++ [(sys.writers i).entry]),
        writers := updW sys.writers i { sys.writers i with phase := WPhase.committed } }
    else if remGen sys.remote = g then
      { remote := some (g + 1, readC ++ [(sys.writers i).entry]),
        writers := updW sys.writers i { sys.writers i with phase := WPhase.committed } }
    else
      { remote := sys.remote,
        writers := updW sys.writers i { sys.writers i with phase := WPhase.ready } }
  | WPhase.committed => sys
  | WPhase.gaveUp => sys

/-- Execution of a schedule (an arbitrary finite interleaving). -/
def runSched (max_retries : Nat) (sys : LogSystem) (sched : List Nat) : LogSystem :=
  sched.foldl (stepW max_retries) sys

/-- Number of occurrences of an entry in a list of log lines. -/
def occCount (e : String) : List String → Nat
  | [] => 0
  | x :: xs => (if x = e then 1 else 0) + occCount e xs

/-- Invariant tying staged observations to the remote object: generations
are positive, and a writer that observed generation `g ≥ 1` with content
`readC` can only find the remote at generation `g` again if the remote is
still exactly `some (g, readC)` (generations never decrease and a given
generation never recurs with different content). -/
def GenInv (sys : LogSystem) : Prop :=
  (∀ g c, sys.remote = some (g, c) → 1 ≤ g) ∧
  (∀ j g readC, (sys.writers j).phase = WPhase.staged g readC → 1 ≤ g →
    g ≤ remGen sys.remote ∧ (remGen sys.remote = g → sys.remote = some (g, readC)))

/-- Invariant for claim C10, relative to one distinguished writer `i`: the
remote object never holds more than one copy of `i`'s entry, holds none
before `i` commits, no other writer appends an equal entry, and every
staged buffer satisfies the same bounds (an unconditional upload stages an
empty read buffer). -/
def OneCopy (i : Nat) (sys : LogSystem) : Prop :=
  (∀ g c, sys.remote = some (g, c) → 1 ≤ g) ∧
  occCount ((sys.writers i).entry) (logLines sys.remote) ≤ 1 ∧
  ((sys.writers i).phase ≠ WPhase.committed →
    occCount ((sys.writers i).entry) (logLines sys.remote) = 0) ∧
  (∀ j, j ≠ i → (sys.writers j).entry ≠ (sys.writers i).entry) ∧
  (∀ j g readC, (sys.writers j).phase = WPhase.staged g readC →
    occCount ((sys.writers i).entry) readC ≤ 1 ∧
    (1 ≤ occCount ((sys.writers i).entry) readC → (sys.writers i).phase = WPhase.committed) ∧
    (g = 0 → readC = []))

/-- Two writers racing to create the (still absent) log object. -/
def twoWriterInit : LogSystem :=
  { remote := none
    writers := fun j =>
      if j = 0 then { entry := "a", attempt := 0, phase := WPhase.ready }
      else { entry := "b", attempt := 0, phase := WPhase.ready } }

/-- A state in which writer 0 holds a staged conditional write against
generation 3 of the remote object. -/
def stagedWitnessSys : LogSystem :=
  { remote := some (3, ["p"])
    writers := fun j =>
      if j = 0 then { entry := "x", attempt := 1, phase := WPhase.staged 3 ["p"] }
      else { entry := "y", attempt := 0, phase := WPhase.ready } }

/-! ## Supporting lemmas -/

/-- String concatenation is concatenation of the underlying character
lists. -/
theorem mk_append_mk (a b : List Char) : String.mk a ++ String.mk b = String.mk (a ++ b) := rfl

/-- The two components of `splitext` recompose to the original path. -/
theorem splitextCore_append (l : List Char) : (splitextCore l).1 ++ (splitextCore l).2 = l := by
  unfold splitextCore
  split
  · simp
  · split
    · exact List.take_append_drop _ _
    · simp

/-! ## Claim C4 -/

/-- Claim C4 (code_bug evidence): for a media-kind input whose probe times
out or fails to spawn, `validate_file_helper` does not return an
`isValid = false` verdict; the exception escapes the validator, because the
only `except` clause catches `subprocess.CalledProcessError`, which
`subprocess.run` never raises without `check=True`. -/
theorem C4_probe_timeout_or_spawn_failure_raises :
    validate_file_helper
        { probeOkWorld with probe := ProbeOutcome.timedOut }
        "/tmp/clip.mp4" "caseA/clip.mp4" =
      Except.error PyExn.timeoutExpired ∧
    validate_file_helper
        { probeOkWorld with probe := ProbeOutcome.spawnFailed "No such file or directory" }
        "/tmp/clip.mp4" "caseA/clip.mp4" =
      Except.error (PyExn.oserror "No such file or directory") := by
  decide

/-! ## Claim C8 -/

/-- Claim C8: for every source path `p`, the derived transcript artifact
path is `p` with its `splitext` extension removed and `.txt` appended; the
extension is exactly the suffix that `splitext` removes, whatever
separators or dots occur earlier in `p`. -/
theorem C8_artifact_naming (p : String) :
    processed_blob_name p = splitextRoot p ++ ".txt" ∧
    splitextRoot p ++ splitextExt p = p := by
  refine ⟨rfl, ?_⟩
  cases p with
  | mk data =>
    show String.mk (splitextCore data).1 ++ String.mk (splitextCore data).2 = String.mk data
    rw [mk_append_mk, splitextCore_append]

/-! ## Claim C9 -/

/-- Claim C9: for every event whose object extension is not one of the
audio extensions, `speech_to_text` returns at once: no audit-log append, no
transcription call, no artifact upload (the effect trace is empty). -/
theorem C9_non_audio_no_effects (w : PipeWorld) (file_name bucket_name : String)
    (h : audioExts.contains (get_file_extension file_name) = false) :
    speech_to_text w file_name bucket_name = (Except.ok (), []) := by
  simp only [speech_to_text]
  rw [h]
  simp

/-- Witness for C9 at a concrete non-audio object. -/
theorem C9_non_audio_no_effects_witness :
    speech_to_text pipeOkWorld "caseA/report.pdf" "discovery-ingest" = (Except.ok (), []) :=
  C9_non_audio_no_effects pipeOkWorld "caseA/report.pdf" "discovery-ingest" (by decide)

/-! ## Claim C6 -/

/-- Claim C6: a path without a separator makes the policy enforcer delete
the object, append exactly one audit entry describing the deletion, and
return `true` (provided the delete call itself does not raise, which is the
behaviour the claim describes); a path with a separator makes it return
`false` with no deletion and no append, in every environment. -/
theorem C6_folder_policy (w : PipeWorld) (file_name bucket_name : String) :
    (file_name.data.contains '/' = false → w.deleteFails = none →
      handle_new_file_or_change w file_name bucket_name =
        (Except.ok true,
          [Effect.deleteObject bucket_name file_name,
           Effect.logAppend
             ("Deleted disallowed file " ++ file_name ++ " (no files allowed at bucket root)")
             "INFO"])) ∧
    (file_name.data.contains '/' = true →
      handle_new_file_or_change w file_name bucket_name = (Except.ok false, [])) := by
  constructor
  · intro h1 h2
    unfold handle_new_file_or_change
    rw [h1, h2]
    rfl
  · intro h1
    unfold handle_new_file_or_change
    rw [h1]
    rfl

/-- Witness for C6 at a root-level path and at a foldered path. -/
theorem C6_folder_policy_witness :
    handle_new_file_or_change pipeOkWorld "report.pdf" "discovery-ingest" =
      (Except.ok true,
        [Effect.deleteObject "discovery-ingest" "report.pdf",
         Effect.logAppend
           ("Deleted disallowed file " ++ "report.pdf" ++ " (no files allowed at bucket root)")
           "INFO"]) ∧
    handle_new_file_or_change pipeOkWorld "caseA/report.pdf" "discovery-ingest" =
      (Except.ok false, []) := by
  have h1 := (C6_folder_policy pipeOkWorld "report.pdf" "discovery-ingest").1 (by decide) rfl
  have h2 := (C6_folder_policy pipeOkWorld "caseA/report.pdf" "discovery-ingest").2 (by decide)
  exact ⟨h1, h2⟩

/-! ## Claim C5 -/

/-- No control path of the `gcs_log` loop lets an exception escape: success
returns, a generation mismatch sleeps and continues, and the catch-all
handler returns. -/
theorem gcs_log_go_never_raises (env : Nat → AttemptOutcome) :
    ∀ (r a : Nat) (bs : List Nat), (gcs_log_go env a r bs).raised = false := by
  intro r
  induction r with
  | zero => intro a bs; rfl
  | succ n ih =>
    intro a bs
    cases h : env a with
    | success => simp [gcs_log_go, h]
    | precondFailed => simp only [gcs_log_go, h]; exact ih (a + 1) (bs ++ [a])
    | otherError => simp [gcs_log_go, h]

/-- The loop uses at most its range of attempts. -/
theorem gcs_log_go_attempts_le (env : Nat → AttemptOutcome) :
    ∀ (r a : Nat) (bs : List Nat), (gcs_log_go env a r bs).attemptsUsed ≤ a - 1 + r := by
  intro r
  induction r with
  | zero => intro a bs; simp [gcs_log_go]
  | succ n ih =>
    intro a bs
    cases h : env a with
    | success => simp only [gcs_log_go, h]; omega
    | precondFailed =>
      simp only [gcs_log_go, h]
      have hle := ih (a + 1) (bs ++ [a])
      omega
    | otherError => simp only [gcs_log_go, h]; omega

/-- A list whose `getLast?` is `some x` contains `x`. -/
theorem getLast_mem_of_eq : ∀ (l : List Nat) (x : Nat), l.getLast? = some x → x ∈ l := by
  intro l
  induction l with
  | nil => intro x h; simp at h
  | cons a as ih =>
    intro x h
    cases as with
    | nil =>
      simp [List.getLast?] at h
      simp [h]
    | cons b bs =>
      rw [List.getLast?_cons_cons] at h
      exact List.mem_cons_of_mem a (ih x h)

/-- The backoff multipliers recorded by the loop are strictly increasing,
as they are the successive values of the loop counter. -/
theorem gcs_log_go_backoffs_sorted (env : Nat → AttemptOutcome) :
    ∀ (r a : Nat) (bs : List Nat), List.Chain' (fun x y => x < y) bs → (∀ x ∈ bs, x < a) →
      List.Chain' (fun x y => x < y) (gcs_log_go env a r bs).backoffs := by
  intro r
  induction r with
  | zero => intro a bs hc _; exact hc
  | succ n ih =>
    intro a bs hc hlt
    cases h : env a with
    | success => simpa [gcs_log_go, h] using hc
    | otherError => simpa [gcs_log_go, h] using hc
    | precondFailed =>
      simp only [gcs_log_go, h]
      apply ih
      · rw [List.chain'_append]
        refine ⟨hc, List.chain'_singleton a, ?_⟩
        intro x hx y hy
        simp only [List.head?_cons, Option.mem_def, Option.some.injEq] at hy
        subst hy
        exact hlt x (getLast_mem_of_eq bs x hx)
      · intro x hx
        rcases List.mem_append.1 hx with hx | hx
        · exact Nat.lt_succ_of_lt (hlt x hx)
        · simp only [List.mem_singleton] at hx
          omega

/-- Claim C5 (code_bug evidence): with the default `max_retries = 5` and
every attempt rejected by a generation mismatch, the call backs off with
strictly increasing waits `0.5 * 1 .. 0.5 * 5`, uses exactly 5 attempts and
returns without raising, but the local error trace promised for retry
exhaustion is never emitted: the `logger.error` statement sits inside the
loop body after paths that all `return` or `continue`, so it is dead code
(`exhaustionTraceEmitted = false`).  In general no call raises, no call
uses more than `max_retries` attempts, and backoffs are always strictly
increasing. -/
theorem C5_gcs_log_retry_and_dead_exhaustion_trace :
    gcs_log_model (fun _ => AttemptOutcome.precondFailed) 5 =
      { committed := false, attemptsUsed := 5, backoffs := [1, 2, 3, 4, 5],
        raised := false, exhaustionTraceEmitted := false, unexpectedTraceEmitted := false } ∧
    (∀ (env : Nat → AttemptOutcome) (m : Nat), (gcs_log_model env m).raised = false) ∧
    (∀ (env : Nat → AttemptOutcome) (m : Nat), (gcs_log_model env m).attemptsUsed ≤ m) ∧
    (∀ (env : Nat → AttemptOutcome) (m : Nat),
      List.Chain' (fun x y => x < y) (gcs_log_model env m).backoffs) := by
  refine ⟨by decide, ?_, ?_, ?_⟩
  · intro env m
    exact gcs_log_go_never_raises env m 1 []
  · intro env m
    have hle := gcs_log_go_attempts_le env m 1 []
    simpa [gcs_log_model] using hle
  · intro env m
    exact gcs_log_go_backoffs_sorted env m 1 [] List.chain'_nil (by intro x hx; simp at hx)

/-! ## Claim C7 -/

/-- Claim C7: the validator dispatch selects exactly one branch, determined
by the extension compared case-insensitively (the branch is a function of
the lower-cased `splitext` extension), and every extension outside the four
recognized sets reaches the final else-branch, an invalid verdict whose
message reports the type as unsupported. -/
theorem C7_validator_dispatch (pw : ProbeWorld) (local_path f₁ f₂ : String) :
    (pyLower (splitextExt f₁) = pyLower (splitextExt f₂) →
      dispatchBranch f₁ = dispatchBranch f₂) ∧
    (dispatchBranch f₁ = VBranch.unsupported →
      validate_file_helper pw local_path f₁ =
        Except.ok (false, "Unsupported file type for " ++ f₁ ++ "; skipping validation.")) := by
  constructor
  · intro h
    unfold dispatchBranch get_file_extension
    rw [h]
  · intro h
    unfold dispatchBranch extBranch at h
    simp only [validate_file_helper]
    split_ifs at h ⊢
    simp_all

/-- Witness for C7: two spellings of an unsupported extension dispatch to
the same branch, and the verdict is the unsupported-type rejection. -/
theorem C7_validator_dispatch_witness :
    dispatchBranch "caseA/NOTES.XYZ" = dispatchBranch "caseB/notes.xyz" ∧
    validate_file_helper probeOkWorld "/tmp/NOTES.XYZ" "caseA/NOTES.XYZ" =
      Except.ok (false,
        "Unsupported file type for " ++ "caseA/NOTES.XYZ" ++ "; skipping validation.") := by
  have h := C7_validator_dispatch probeOkWorld "/tmp/NOTES.XYZ" "caseA/NOTES.XYZ" "caseB/notes.xyz"
  exact ⟨h.1 (by decide), h.2 (by decide)⟩

/-! ## Claim C2 -/

/-- The transcription stage never lets an exception escape: every branch of
`speech_to_text` either returns early or runs inside the `try` whose
`except Exception` handler converts the failure into an audit entry. -/
theorem speech_to_text_no_raise (w : PipeWorld) (f b : String) :
    (speech_to_text w f b).1 = Except.ok () := by
  simp only [speech_to_text]
  split
  · cases w.transcribeResult with
    | error e => rfl
    | ok results =>
      cases w.uploadFails with
      | some m => rfl
      | none => rfl
  · rfl

/-- First component of the folder-policy stage when its delete call
succeeds: `true` exactly for a separator-free path. -/
theorem handle_fst (w : PipeWorld) (f b : String) (h : w.deleteFails = none) :
    (handle_new_file_or_change w f b).1 = Except.ok (!(f.data.contains '/')) := by
  unfold handle_new_file_or_change
  cases hc : f.data.contains '/'
  · rw [h]
    rfl
  · rfl

/-- Claim C2 counterexample: a Finalized event for a root-level object
whose policy-stage delete call raises makes the exception propagate out of
the top-level handler, because `handle_new_file_or_change` is the one stage
call not wrapped in any `try` in `analyze_discovery_material_ce`. -/
theorem C2_counterexample :
    (analyze_discovery_material_ce policyDeleteFailsWorld rootEvent).1 =
      Except.error (PyExn.other "ServiceUnavailable") := by decide

/-- Claim C2 amended: provided the folder-policy stage itself does not
raise (its delete call succeeds), the handler returns normally on every
Finalized event: validation-stage failures are caught and swallowed by the
`try` around `validate_file`, and the transcription stage never raises. -/
theorem C2_no_throw_when_policy_delete_succeeds (w : PipeWorld) (ce : IngestEvent)
    (h : w.deleteFails = none) :
    (analyze_discovery_material_ce w ce).1 = Except.ok () := by
  unfold analyze_discovery_material_ce
  split
  · split
    · next e fx heq =>
      have hfst := handle_fst w ce.name ce.bucket h
      rw [heq] at hfst
      simp at hfst
    · rfl
    · split
      · next fxv e fxs heq2 =>
        have hs := speech_to_text_no_raise w ce.name ce.bucket
        rw [heq2] at hs
        simp at hs
      · rfl
  · rfl

/-- Witness for C2 at a concrete event and a fully healthy environment. -/
theorem C2_no_throw_witness :
    (analyze_discovery_material_ce pipeOkWorld rootEvent).1 = Except.ok () :=
  C2_no_throw_when_policy_delete_succeeds pipeOkWorld rootEvent rfl

/-! ## Claim C3 -/

/-- For an audio object, every branch of `speech_to_text` calls the
transcription service (the call precedes both failure handling paths). -/
theorem speech_transcribe_mem (w : PipeWorld) (f b : String)
    (h : audioExts.contains (get_file_extension f) = true) :
    Effect.transcribeCall ("gs://" ++ b ++ "/" ++ f) ∈ (speech_to_text w f b).2 := by
  simp only [speech_to_text]
  rw [h]
  cases w.transcribeResult with
  | error e => simp
  | ok results =>
    cases w.uploadFails with
    | some m => simp
    | none => simp

/-- A path containing a separator passes the folder policy. -/
theorem handle_sep_eq (w : PipeWorld) (f b : String) (h : f.data.contains '/' = true) :
    handle_new_file_or_change w f b = (Except.ok false, []) := by
  unfold handle_new_file_or_change
  rw [h]
  rfl

/-- Claim C3 counterexample: a foldered `.wav` object that fails validation
is deleted by the validation stage (first two effects), and the
transcription stage is nevertheless invoked on it afterwards (last two
effects), because `speech_to_text(ce)` is called unconditionally after
`validate_file` in the handler. -/
theorem C3_counterexample :
    (analyze_discovery_material_ce invalidAudioWorld audioEvent).2 =
      [Effect.deleteObject "discovery-ingest" "caseA/bad.wav",
       Effect.logAppend
         "Deleted corrupted or invalid file caseA/bad.wav: Invalid or corrupted media: caseA/bad.wav, None-zero exit code\n"
         "ERROR",
       Effect.transcribeCall "gs://discovery-ingest/caseA/bad.wav",
       Effect.logAppend
         "Speech-to-text failed for gs://discovery-ingest/caseA/bad.wav: NotFound"
         "ERROR"] := by decide

/-- Claim C3 amended: for every Finalized event whose path passes the
folder policy, the invocation's effect trace is the validation stage's
effects followed by the transcription stage's effects regardless of the
validation verdict — the transcription stage still runs (and, for an audio
object, still calls the transcription service) after a validation failure
deleted the object; a transcription failure never stops the invocation
(the stage always returns normally). -/
theorem C3_transcription_runs_after_validation (w : PipeWorld) (ce : IngestEvent)
    (ht : ce.type = "google.cloud.storage.object.v1.finalized")
    (hf : ce.name.data.contains '/' = true)
    (ha : audioExts.contains (get_file_extension ce.name) = true) :
    (analyze_discovery_material_ce w ce).2 =
      (validate_file w ce.name ce.bucket).2 ++ (speech_to_text w ce.name ce.bucket).2 ∧
    (speech_to_text w ce.name ce.bucket).1 = Except.ok () ∧
    Effect.transcribeCall ("gs://" ++ ce.bucket ++ "/" ++ ce.name) ∈
      (analyze_discovery_material_ce w ce).2 := by
  have hmain :
      (analyze_discovery_material_ce w ce).2 =
        (validate_file w ce.name ce.bucket).2 ++ (speech_to_text w ce.name ce.bucket).2 := by
    unfold analyze_discovery_material_ce
    rw [if_pos ht, handle_sep_eq w ce.name ce.bucket hf]
    rcases hv : validate_file w ce.name ce.bucket with ⟨rv, fxv⟩
    rcases hs : speech_to_text w ce.name ce.bucket with ⟨rs, fxs⟩
    have hok := speech_to_text_no_raise w ce.name ce.bucket
    rw [hs] at hok
    simp only at hok
    subst hok
    simp
  refine ⟨hmain, speech_to_text_no_raise w ce.name ce.bucket, ?_⟩
  rw [hmain]
  exact List.mem_append_right _ (speech_transcribe_mem w ce.name ce.bucket ha)

/-- Witness for C3 at a concrete audio event in a healthy environment. -/
theorem C3_transcription_runs_witness :
    (analyze_discovery_material_ce pipeOkWorld audioEvent).2 =
      (validate_file pipeOkWorld audioEvent.name audioEvent.bucket).2 ++
        (speech_to_text pipeOkWorld audioEvent.name audioEvent.bucket).2 ∧
    (speech_to_text pipeOkWorld audioEvent.name audioEvent.bucket).1 = Except.ok () ∧
    Effect.transcribeCall ("gs://" ++ audioEvent.bucket ++ "/" ++ audioEvent.name) ∈
      (analyze_discovery_material_ce pipeOkWorld audioEvent).2 :=
  C3_transcription_runs_after_validation pipeOkWorld audioEvent rfl (by decide) (by decide)

/-! ## Small-step lemmas for the multi-writer log system -/

/-- Updating writer `i` changes only index `i`. -/
theorem updW_same (ws : Nat → LogWriter) (i : Nat) (w : LogWriter) : updW ws i w i = w := by
  simp [updW]

/-- Updating writer `i` leaves other indices unchanged. -/
theorem updW_other (ws : Nat → LogWriter) (i : Nat) (w : LogWriter) (j : Nat) (h : j ≠ i) :
    updW ws i w j = ws j := by
  simp [updW, h]

/-- Read step with iterations left on a present object. -/
theorem doRead_eq_some (m g : Nat) (c : List String) (w : LogWriter) (h : w.attempt < m) :
    doRead m (some (g, c)) w =
      { w with phase := WPhase.staged g c, attempt := w.attempt + 1 } := by
  simp only [doRead, if_pos h]

/-- Read step with iterations left on an absent object. -/
theorem doRead_eq_none (m : Nat) (w : LogWriter) (h : w.attempt < m) :
    doRead m none w = { w with phase := WPhase.staged 0 [], attempt := w.attempt + 1 } := by
  simp only [doRead, if_pos h]

/-- Read step with the loop range exhausted. -/
theorem doRead_eq_exhausted (m : Nat) (r : Option (Nat × List String)) (w : LogWriter)
    (h : ¬ w.attempt < m) : doRead m r w = { w with phase := WPhase.gaveUp } := by
  simp only [doRead, if_neg h]

/-- A read step leaves the remote object unchanged. -/
theorem stepW_ready_remote (m : Nat) (sys : LogSystem) (k : Nat)
    (h : (sys.writers k).phase = WPhase.ready) : (stepW m sys k).remote = sys.remote := by
  simp only [stepW, h]

/-- Writer family after a read step. -/
theorem stepW_ready_writers (m : Nat) (sys : LogSystem) (k : Nat)
    (h : (sys.writers k).phase = WPhase.ready) :
    (stepW m sys k).writers = updW sys.writers k (doRead m sys.remote (sys.writers k)) := by
  simp only [stepW, h]

/-- Remote object after an unconditional upload (observed generation 0):
always replaced, with a strictly larger generation. -/
theorem stepW_uncond_remote (m : Nat) (sys : LogSystem) (k : Nat) (readC : List String)
    (h : (sys.writers k).phase = WPhase.staged 0 readC) :
    (stepW m sys k).remote =
      some (remGen sys.remote + 1, readC ++ [(sys.writers k).entry]) := by
  simp [stepW, h]

/-- Writer family after an unconditional upload: the writer commits. -/
theorem stepW_uncond_writers (m : Nat) (sys : LogSystem) (k : Nat) (readC : List String)
    (h : (sys.writers k).phase = WPhase.staged 0 readC) :
    (stepW m sys k).writers =
      updW sys.writers k { sys.writers k with phase := WPhase.committed } := by
  simp [stepW, h]

/-- Remote object after an accepted conditional upload: the staged buffer
is committed at the next generation. -/
theorem stepW_cond_hit_remote (m : Nat) (sys : LogSystem) (k g : Nat) (readC : List String)
    (h : (sys.writers k).phase = WPhase.staged g readC) (hg : g ≠ 0)
    (hit : remGen sys.remote = g) :
    (stepW m sys k).remote = some (g + 1, readC ++ [(sys.writers k).entry]) := by
  simp only [stepW, h, if_neg hg, if_pos hit]

/-- Writer family after an accepted conditional upload. -/
theorem stepW_cond_hit_writers (m : Nat) (sys : LogSystem) (k g : Nat) (readC : List String)
    (h : (sys.writers k).phase = WPhase.staged g readC) (hg : g ≠ 0)
    (hit : remGen sys.remote = g) :
    (stepW m sys k).writers =
      updW sys.writers k { sys.writers k with phase := WPhase.committed } := by
  simp only [stepW, h, if_neg hg, if_pos hit]

/-- Remote object after a rejected conditional upload
(`PreconditionFailed`): unchanged. -/
theorem stepW_cond_miss_remote (m : Nat) (sys : LogSystem) (k g : Nat) (readC : List String)
    (h : (sys.writers k).phase = WPhase.staged g readC) (hg : g ≠ 0)
    (miss : remGen sys.remote ≠ g) : (stepW m sys k).remote = sys.remote := by
  simp only [stepW, h, if_neg hg, if_neg miss]

/-- Writer family after a rejected conditional upload: back to the top of
the retry loop. -/
theorem stepW_cond_miss_writers (m : Nat) (sys : LogSystem) (k g : Nat) (readC : List String)
    (h : (sys.writers k).phase = WPhase.staged g readC) (hg : g ≠ 0)
    (miss : remGen sys.remote ≠ g) :
    (stepW m sys k).writers =
      updW sys.writers k { sys.writers k with phase := WPhase.ready } := by
  simp only [stepW, h, if_neg hg, if_neg miss]

/-- Scheduling a committed writer changes nothing. -/
theorem stepW_committed_eq (m : Nat) (sys : LogSystem) (k : Nat)
    (h : (sys.writers k).phase = WPhase.committed) : stepW m sys k = sys := by
  simp only [stepW, h]

/-- Scheduling a writer that left the loop changes nothing. -/
theorem stepW_gaveUp_eq (m : Nat) (sys : LogSystem) (k : Nat)
    (h : (sys.writers k).phase = WPhase.gaveUp) : stepW m sys k = sys := by
  simp only [stepW, h]

/-- No step changes any writer's entry. -/
theorem stepW_entry (m : Nat) (sys : LogSystem) (k j : Nat) :
    ((stepW m sys k).writers j).entry = (sys.writers j).entry := by
  cases hph : (sys.writers k).phase with
  | ready =>
    rw [stepW_ready_writers m sys k hph]
    by_cases hjk : j = k
    · subst hjk
      rw [updW_same]
      by_cases hat : (sys.writers j).attempt < m
      · cases hrem : sys.remote with
        | none => rw [doRead_eq_none m _ hat]
        | some p =>
          obtain ⟨g0, c0⟩ := p
          rw [doRead_eq_some m g0 c0 _ hat]
      · rw [doRead_eq_exhausted m _ _ hat]
    · rw [updW_other _ _ _ _ hjk]
  | staged g readC =>
    by_cases hg : g = 0
    · subst hg
      rw [stepW_uncond_writers m sys k readC hph]
      by_cases hjk : j = k
      · subst hjk; rw [updW_same]
      · rw [updW_other _ _ _ _ hjk]
    · by_cases hit : remGen sys.remote = g
      · rw [stepW_cond_hit_writers m sys k g readC hph hg hit]
        by_cases hjk : j = k
        · subst hjk; rw [updW_same]
        · rw [updW_other _ _ _ _ hjk]
      · rw [stepW_cond_miss_writers m sys k g readC hph hg hit]
        by_cases hjk : j = k
        · subst hjk; rw [updW_same]
        · rw [updW_other _ _ _ _ hjk]
  | committed => rw [stepW_committed_eq m sys k hph]
  | gaveUp => rw [stepW_gaveUp_eq m sys k hph]

/-- No schedule changes any writer's entry. -/
theorem runSched_entry (m : Nat) (sys : LogSystem) (sched : List Nat) (j : Nat) :
    ((runSched m sys sched).writers j).entry = (sys.writers j).entry := by
  induction sched generalizing sys with
  | nil => rfl
  | cons k ks ih =>
    show ((runSched m (stepW m sys k) ks).writers j).entry = (sys.writers j).entry
    rw [ih (stepW m sys k), stepW_entry]

/-- Every step preserves `GenInv`: reads record the exact remote state,
writes strictly increase the generation, and a staged observation can only
match the current generation if the remote is unchanged since the read. -/
theorem GenInv_step (m : Nat) (sys : LogSystem) (k : Nat) (h : GenInv sys) :
    GenInv (stepW m sys k) := by
  obtain ⟨hgen, hstg⟩ := h
  cases hph : (sys.writers k).phase with
  | ready =>
    constructor
    · intro g c hr
      rw [stepW_ready_remote m sys k hph] at hr
      exact hgen g c hr
    · intro j g readC hj hg1
      rw [stepW_ready_writers m sys k hph] at hj
      rw [stepW_ready_remote m sys k hph]
      by_cases hjk : j = k
      · subst hjk
        rw [updW_same] at hj
        by_cases hat : (sys.writers j).attempt < m
        · cases hrem : sys.remote with
          | none =>
            rw [hrem, doRead_eq_none m _ hat] at hj
            simp at hj
            obtain ⟨hg0, _⟩ := hj
            omega
          | some p =>
            obtain ⟨g0, c0⟩ := p
            rw [hrem, doRead_eq_some m g0 c0 _ hat] at hj
            simp at hj
            obtain ⟨hg0, hc0⟩ := hj
            subst hg0
            subst hc0
            exact ⟨le_refl _, fun _ => rfl⟩
        · rw [doRead_eq_exhausted m _ _ hat] at hj
          simp at hj
      · rw [updW_other _ _ _ _ hjk] at hj
        exact hstg j g readC hj hg1
  | staged gk readCk =>
    by_cases hgz : gk = 0
    · subst hgz
      constructor
      · intro g c hr
        rw [stepW_uncond_remote m sys k readCk hph] at hr
        simp at hr
        obtain ⟨hg0, _⟩ := hr
        omega
      · intro j g readC hj hg1
        rw [stepW_uncond_writers m sys k readCk hph] at hj
        rw [stepW_uncond_remote m sys k readCk hph]
        by_cases hjk : j = k
        · subst hjk
          rw [updW_same] at hj
          simp at hj
        · rw [updW_other _ _ _ _ hjk] at hj
          have hold := hstg j g readC hj hg1
          refine ⟨?_, ?_⟩
          · show g ≤ remGen sys.remote + 1
            have h1 := hold.1
            omega
          · intro hEq
            have hEq2 : remGen sys.remote + 1 = g := hEq
            have h1 := hold.1
            omega
    · by_cases hit : remGen sys.remote = gk
      · constructor
        · intro g c hr
          rw [stepW_cond_hit_remote m sys k gk readCk hph hgz hit] at hr
          simp at hr
          obtain ⟨hg0, _⟩ := hr
          omega
        · intro j g readC hj hg1
          rw [stepW_cond_hit_writers m sys k gk readCk hph hgz hit] at hj
          rw [stepW_cond_hit_remote m sys k gk readCk hph hgz hit]
          by_cases hjk : j = k
          · subst hjk
            rw [updW_same] at hj
            simp at hj
          · rw [updW_other _ _ _ _ hjk] at hj
            have hold := hstg j g readC hj hg1
            have h1 := hold.1
            rw [hit] at h1
            refine ⟨?_, ?_⟩
            · show g ≤ gk + 1
              omega
            · intro hEq
              have hEq2 : gk + 1 = g := hEq
              omega
      · constructor
        · intro g c hr
          rw [stepW_cond_miss_remote m sys k gk readCk hph hgz hit] at hr
          exact hgen g c hr
        · intro j g readC hj hg1
          rw [stepW_cond_miss_writers m sys k gk readCk hph hgz hit] at hj
          rw [stepW_cond_miss_remote m sys k gk readCk hph hgz hit]
          by_cases hjk : j = k
          · subst hjk
            rw [updW_same] at hj
            simp at hj
          · rw [updW_other _ _ _ _ hjk] at hj
            exact hstg j g readC hj hg1
  | committed =>
    rw [stepW_committed_eq m sys k hph]
    exact ⟨hgen, hstg⟩
  | gaveUp =>
    rw [stepW_gaveUp_eq m sys k hph]
    exact ⟨hgen, hstg⟩

/-- Every schedule preserves `GenInv`. -/
theorem GenInv_runSched (m : Nat) (sys : LogSystem) (sched : List Nat) (h : GenInv sys) :
    GenInv (runSched m sys sched) := by
  induction sched generalizing sys with
  | nil => exact h
  | cons k ks ih =>
    show GenInv (runSched m (stepW m sys k) ks)
    exact ih (stepW m sys k) (GenInv_step m sys k h)

/-! ## Claim C1 -/

/-- Claim C1 counterexample: two `gcs_log` callers racing to create the
still-absent log object both observe absence, so both upload without a
generation precondition.  Both appends succeed (both writers commit), yet
the final log is `["b"]`: writer 0's committed entry `"a"` has been lost,
and writer 1's unconditional write happened when the object already
existed at generation 1, i.e. not on the very first creation. -/
theorem C1_counterexample :
    ((runSched 5 twoWriterInit [0, 1, 0, 1]).writers 0).phase = WPhase.committed ∧
    ((runSched 5 twoWriterInit [0, 1, 0, 1]).writers 1).phase = WPhase.committed ∧
    (runSched 5 twoWriterInit [0, 1, 0, 1]).remote = some (2, ["b"]) ∧
    occCount "a" (logLines (runSched 5 twoWriterInit [0, 1, 0, 1]).remote) = 0 := by
  decide

/-- Claim C1 amended: every append whose writer observed a positive
generation carries the generation precondition; when such a write is
accepted (the remote generation still equals the observed one), the remote
object was exactly the observed `some (g, readC)`, the committed content is
the read content with the writer's entry appended (all previously committed
entries preserved, in order), and the generation strictly increases to
`g + 1`.  Only a writer that observed the object as absent uploads without
a precondition, and (by the counterexample) that is not limited to the very
first creation. -/
theorem C1_conditional_append_preserves (m : Nat) (sys : LogSystem) (i g : Nat)
    (readC : List String) (hInv : GenInv sys)
    (hst : (sys.writers i).phase = WPhase.staged g readC) (hg : 1 ≤ g)
    (hmatch : remGen sys.remote = g) :
    sys.remote = some (g, readC) ∧
    (stepW m sys i).remote = some (g + 1, readC ++ [(sys.writers i).entry]) ∧
    ((stepW m sys i).writers i).phase = WPhase.committed := by
  have hgz : g ≠ 0 := by omega
  have hrem := (hInv.2 i g readC hst hg).2 hmatch
  refine ⟨hrem, stepW_cond_hit_remote m sys i g readC hst hgz hmatch, ?_⟩
  rw [stepW_cond_hit_writers m sys i g readC hst hgz hmatch, updW_same]

/-- Witness for the amended C1 at a concrete staged conditional write. -/
theorem C1_conditional_append_preserves_witness :
    stagedWitnessSys.remote = some (3, ["p"]) ∧
    (stepW 5 stagedWitnessSys 0).remote =
      some (3 + 1, ["p"] ++ [(stagedWitnessSys.writers 0).entry]) ∧
    ((stepW 5 stagedWitnessSys 0).writers 0).phase = WPhase.committed := by
  have hInv : GenInv stagedWitnessSys := by
    constructor
    · intro g c hr
      simp [stagedWitnessSys] at hr
      obtain ⟨hg, _⟩ := hr
      omega
    · intro j g readC hj hg1
      by_cases hj0 : j = 0
      · subst hj0
        simp [stagedWitnessSys] at hj
        obtain ⟨hg3, hrc⟩ := hj
        subst hg3
        subst hrc
        exact ⟨by simp [stagedWitnessSys, remGen], fun _ => by simp [stagedWitnessSys]⟩
      · simp [stagedWitnessSys, hj0] at hj
  exact C1_conditional_append_preserves 5 stagedWitnessSys 0 3 ["p"] hInv rfl (by omega) rfl

/-! ## Claim C10 -/

/-- Occurrence counting distributes over list concatenation. -/
theorem occCount_append (e : String) (l₁ l₂ : List String) :
    occCount e (l₁ ++ l₂) = occCount e l₁ + occCount e l₂ := by
  induction l₁ with
  | nil => simp [occCount]
  | cons x xs ih =>
    show (if x = e then 1 else 0) + occCount e (xs ++ l₂) =
      (if x = e then 1 else 0) + occCount e xs + occCount e l₂
    rw [ih]
    omega

/-- Occurrence count after appending one line. -/
theorem occ_append_single (e : String) (l : List String) (x : String) :
    occCount e (l ++ [x]) = occCount e l + (if x = e then 1 else 0) := by
  rw [occCount_append]
  simp [occCount]

/-- Every step preserves `OneCopy i`: each attempt of writer `i` stages the
freshly read remote content (which holds no copy of `i`'s entry before `i`
commits) plus exactly one copy of the entry, so no interleaving puts a
second copy into the committed log. -/
theorem OneCopy_step (m : Nat) (sys : LogSystem) (i k : Nat) (h : OneCopy i sys) :
    OneCopy i (stepW m sys k) := by
  obtain ⟨hgen, hle, hnc, hdist, hstg⟩ := h
  cases hph : (sys.writers k).phase with
  | ready =>
    have hrr := stepW_ready_remote m sys k hph
    have hrw := stepW_ready_writers m sys k hph
    refine ⟨?_, ?_, ?_, ?_, ?_⟩
    · intro g c hr
      rw [hrr] at hr
      exact hgen g c hr
    · rw [stepW_entry, hrr]
      exact hle
    · intro hphm
      rw [stepW_entry, hrr]
      apply hnc
      intro hcom
      apply hphm
      rw [hrw]
      by_cases hik : i = k
      · subst hik
        rw [hph] at hcom
        simp at hcom
      · rw [updW_other _ _ _ _ hik]
        exact hcom
    · intro j hji
      rw [stepW_entry, stepW_entry]
      exact hdist j hji
    · intro j g readC hj
      rw [hrw] at hj
      rw [stepW_entry]
      by_cases hjk : j = k
      · rw [hjk] at hj
        rw [updW_same] at hj
        by_cases hat : (sys.writers k).attempt < m
        · cases hrem : sys.remote with
          | none =>
            rw [hrem, doRead_eq_none m _ hat] at hj
            simp at hj
            obtain ⟨hg0, hrc⟩ := hj
            subst hg0
            subst hrc
            simp [occCount]
          | some p =>
            obtain ⟨g0, c0⟩ := p
            rw [hrem, doRead_eq_some m g0 c0 _ hat] at hj
            simp at hj
            obtain ⟨hg0, hc0⟩ := hj
            subst hg0
            subst hc0
            have hlec : occCount ((sys.writers i).entry) c0 ≤ 1 := by
              have hx := hle
              rw [hrem] at hx
              simpa [logLines] using hx
            refine ⟨hlec, ?_, ?_⟩
            · intro hpos
              have hcom : (sys.writers i).phase = WPhase.committed := by
                by_contra hq
                have h0 := hnc hq
                rw [hrem] at h0
                simp [logLines] at h0
                omega
              rw [hrw]
              by_cases hik : i = k
              · subst hik
                rw [hph] at hcom
                simp at hcom
              · rw [updW_other _ _ _ _ hik]
                exact hcom
            · intro hg0z
              exfalso
              have hge := hgen g0 c0 hrem
              omega
        · rw [doRead_eq_exhausted m _ _ hat] at hj
          simp at hj
      · rw [updW_other _ _ _ _ hjk] at hj
        have hold := hstg j g readC hj
        refine ⟨hold.1, ?_, hold.2.2⟩
        intro hpos
        have hcom := hold.2.1 hpos
        rw [hrw]
        by_cases hik : i = k
        · subst hik
          rw [hph] at hcom
          simp at hcom
        · rw [updW_other _ _ _ _ hik]
          exact hcom
  | staged gk readCk =>
    have holdk := hstg k gk readCk hph
    by_cases hgz : gk = 0
    · have hrc0 : readCk = [] := holdk.2.2 hgz
      subst hgz
      subst hrc0
      have hrr := stepW_uncond_remote m sys k [] hph
      have hrw := stepW_uncond_writers m sys k [] hph
      refine ⟨?_, ?_, ?_, ?_, ?_⟩
      · intro g c hr
        rw [hrr] at hr
        simp at hr
        obtain ⟨hg0, _⟩ := hr
        omega
      · rw [stepW_entry, hrr]
        show occCount ((sys.writers i).entry) ([] ++ [(sys.writers k).entry]) ≤ 1
        rw [occ_append_single]
        simp [occCount]
        split
        · omega
        · omega
      · intro hphm
        rw [stepW_entry, hrr]
        show occCount ((sys.writers i).entry) ([] ++ [(sys.writers k).entry]) = 0
        by_cases hik : i = k
        · exfalso
          apply hphm
          subst hik
          rw [hrw, updW_same]
        · have hne : (sys.writers k).entry ≠ (sys.writers i).entry :=
            hdist k (fun hc => hik hc.symm)
          rw [occ_append_single]
          simp [occCount, hne]
      · intro j hji
        rw [stepW_entry, stepW_entry]
        exact hdist j hji
      · intro j g readC hj
        rw [hrw] at hj
        rw [stepW_entry]
        by_cases hjk : j = k
        · rw [hjk] at hj
          rw [updW_same] at hj
          simp at hj
        · rw [updW_other _ _ _ _ hjk] at hj
          have hold := hstg j g readC hj
          refine ⟨hold.1, ?_, hold.2.2⟩
          intro hpos
          have hcom := hold.2.1 hpos
          rw [hrw]
          by_cases hik : i = k
          · subst hik
            rw [updW_same]
          · rw [updW_other _ _ _ _ hik]
            exact hcom
    · by_cases hit : remGen sys.remote = gk
      · have hrr := stepW_cond_hit_remote m sys k gk readCk hph hgz hit
        have hrw := stepW_cond_hit_writers m sys k gk readCk hph hgz hit
        refine ⟨?_, ?_, ?_, ?_, ?_⟩
        · intro g c hr
          rw [hrr] at hr
          simp at hr
          obtain ⟨hg0, _⟩ := hr
          omega
        · rw [stepW_entry, hrr]
          show occCount ((sys.writers i).entry) (readCk ++ [(sys.writers k).entry]) ≤ 1
          rw [occ_append_single]
          by_cases hik : i = k
          · subst hik
            have h0 : occCount ((sys.writers i).entry) readCk = 0 := by
              rcases Nat.eq_zero_or_pos (occCount ((sys.writers i).entry) readCk) with h0 | hpos
              · exact h0
              · exfalso
                have hcom := holdk.2.1 hpos
                rw [hph] at hcom
                simp at hcom
            simp [h0]
          · have hne : (sys.writers k).entry ≠ (sys.writers i).entry :=
              hdist k (fun hc => hik hc.symm)
            simp [hne]
            exact holdk.1
        · intro hphm
          rw [stepW_entry, hrr]
          show occCount ((sys.writers i).entry) (readCk ++ [(sys.writers k).entry]) = 0
          by_cases hik : i = k
          · exfalso
            apply hphm
            subst hik
            rw [hrw, updW_same]
          · have hphm2 : (sys.writers i).phase ≠ WPhase.committed := by
              intro hcom
              apply hphm
              rw [hrw, updW_other _ _ _ _ hik]
              exact hcom
            have h0 : occCount ((sys.writers i).entry) readCk = 0 := by
              rcases Nat.eq_zero_or_pos (occCount ((sys.writers i).entry) readCk) with h0 | hpos
              · exact h0
              · exact absurd (holdk.2.1 hpos) hphm2
            have hne : (sys.writers k).entry ≠ (sys.writers i).entry :=
              hdist k (fun hc => hik hc.symm)
            rw [occ_append_single, h0]
            simp [hne]
        · intro j hji
          rw [stepW_entry, stepW_entry]
          exact hdist j hji
        · intro j g readC hj
          rw [hrw] at hj
          rw [stepW_entry]
          by_cases hjk : j = k
          · rw [hjk] at hj
            rw [updW_same] at hj
            simp at hj
          · rw [updW_other _ _ _ _ hjk] at hj
            have hold := hstg j g readC hj
            refine ⟨hold.1, ?_, hold.2.2⟩
            intro hpos
            have hcom := hold.2.1 hpos
            rw [hrw]
            by_cases hik : i = k
            · subst hik
              rw [updW_same]
            · rw [updW_other _ _ _ _ hik]
              exact hcom
      · have hrr := stepW_cond_miss_remote m sys k gk readCk hph hgz hit
        have hrw := stepW_cond_miss_writers m sys k gk readCk hph hgz hit
        refine ⟨?_, ?_, ?_, ?_, ?_⟩
        · intro g c hr
          rw [hrr] at hr
          exact hgen g c hr
        · rw [stepW_entry, hrr]
          exact hle
        · intro hphm
          rw [stepW_entry, hrr]
          apply hnc
          intro hcom
          apply hphm
          rw [hrw]
          by_cases hik : i = k
          · subst hik
            rw [hph] at hcom
            simp at hcom
          · rw [updW_other _ _ _ _ hik]
            exact hcom
        · intro j hji
          rw [stepW_entry, stepW_entry]
          exact hdist j hji
        · intro j g readC hj
          rw [hrw] at hj
          rw [stepW_entry]
          by_cases hjk : j = k
          · rw [hjk] at hj
            rw [updW_same] at hj
            simp at hj
          · rw [updW_other _ _ _ _ hjk] at hj
            have hold := hstg j g readC hj
            refine ⟨hold.1, ?_, hold.2.2⟩
            intro hpos
            have hcom := hold.2.1 hpos
            rw [hrw]
            by_cases hik : i = k
            · subst hik
              rw [hph] at hcom
              simp at hcom
            · rw [updW_other _ _ _ _ hik]
              exact hcom
  | committed =>
    rw [stepW_committed_eq m sys k hph]
    exact ⟨hgen, hle, hnc, hdist, hstg⟩
  | gaveUp =>
    rw [stepW_gaveUp_eq m sys k hph]
    exact ⟨hgen, hle, hnc, hdist, hstg⟩

/-- Every schedule preserves `OneCopy i`. -/
theorem OneCopy_runSched (m : Nat) (sys : LogSystem) (sched : List Nat) (i : Nat)
    (h : OneCopy i sys) : OneCopy i (runSched m sys sched) := by
  induction sched generalizing sys with
  | nil => exact h
  | cons k ks ih =>
    show OneCopy i (runSched m (stepW m sys k) ks)
    exact ih (stepW m sys k) (OneCopy_step m sys i k h)

/-- Claim C10: under any interleaving with other writers (whose entries
differ from writer `i`'s and whose staged buffers satisfy the same
invariant), the committed log never holds more than one copy of writer
`i`'s formatted entry: every retry re-downloads the current remote content
into the local buffer (overwriting it) before appending the entry once, so
a retried attempt never re-appends an already staged copy. -/
theorem C10_one_call_at_most_one_copy (m : Nat) (sys : LogSystem) (sched : List Nat) (i : Nat)
    (h : OneCopy i sys) :
    occCount ((sys.writers i).entry) (logLines (runSched m sys sched).remote) ≤ 1 := by
  have h2 := (OneCopy_runSched m sys sched i h).2.1
  rw [runSched_entry] at h2
  exact h2

/-- Witness for C10: the two-writer race from the absent log object, run
through a full interleaving. -/
theorem C10_one_call_at_most_one_copy_witness :
    occCount ((twoWriterInit.writers 0).entry)
      (logLines (runSched 5 twoWriterInit [0, 1, 0, 1]).remote) ≤ 1 := by
  have hOC : OneCopy 0 twoWriterInit := by
    refine ⟨?_, ?_, ?_, ?_, ?_⟩
    · intro g c hr
      simp [twoWriterInit] at hr
    · decide
    · intro hphm
      decide
    · intro j hj0
      simp [twoWriterInit, hj0]
    · intro j g readC hj
      by_cases hj0 : j = 0
      · subst hj0
        simp [twoWriterInit] at hj
      · simp [twoWriterInit, hj0] at hj
  exact C10_one_call_at_most_one_copy 5 twoWriterInit [0, 1, 0, 1] 0 hOC
